import Mathlib

/-!
Verification of the DHCPv4 codec in src/lib/dhcp.c (fr_dhcp_recv, fr_dhcp_decode,
fr_dhcp_vp2attr, attr_cmp, fr_dhcp_encode).

A datagram is modelled as a List Nat of byte values.  Reads of the fixed BOOTP
header use a defaulting accessor (byteAt); reads performed by the option-area
walk of fr_dhcp_decode are modelled totally, with an index that can fall outside
the buffer reported as DecodeErr.oobRead (the C code would read past the end of
the heap allocation there).

The repository header dhcp.h (DHCP2ATTR, PW_DHCP_OFFSET, IS_DHCP_ATTR,
DHCP_BASE_ATTR, DHCP_UNPACK_OPTION1, PW_DHCP_OPTION_82) and the dictionary
service are not under src/.  Those few definitions are modelled from the spec,
which states that option code O occupies a dictionary slot disjoint from header
pseudo-attributes (spec section 3 allows any invertible disjoint tagging
scheme).  We use the vendor-tag scheme attribute = 54 * 65536 + inner, under
which the bit operations of the C code (and 0xffff, and 0xff, shift right 8)
become the arithmetic operations mod 65536, mod 256, div 256.
-/

set_option maxRecDepth 10000

/-- Read a byte of a datagram at offset i; out-of-range reads default to 0.
Used for fixed-header accesses, which are in bounds for every accepted packet. -/
def byteAt (d : List Nat) (i : Nat) : Nat := d.getD i 0

/-- Read n consecutive bytes starting at offset i (defaulting as byteAt).
The result always has length n, matching a C memcpy of n bytes. -/
def sliceD (d : List Nat) (i n : Nat) : List Nat :=
  (List.range n).map (fun k => byteAt d (i + k))

/-- Read the first n bytes of a stored payload buffer.  C value-pair payload
buffers are fixed-size arrays; bytes beyond what was written are modelled as 0
(no claim in this development depends on such bytes). -/
def takePad (n : Nat) (l : List Nat) : List Nat :=
  l.take n ++ List.replicate (n - l.length) 0

/-- Attribute payload types of the dictionary (PW_TYPE_* in the C source). -/
inductive PWType where
  | BYTE | SHORT | INTEGER | IPADDR | DATE | STRING | OCTETS | ETHERNET
  deriving DecidableEq, Repr

/-- A VALUE_PAIR.  lvalue models the vp_integer / lvalue union member used by
numeric types; octets models the vp_strvalue / vp_octets / vp_ether storage
used by the other types (these unions never alias across a claim here); length
models the separate vp->length field, which the C code does not always keep
equal to the number of stored bytes. -/
structure VALUE_PAIR where
  attrib : Nat
  ptype : PWType
  lvalue : Nat
  octets : List Nat
  length : Nat
  deriving DecidableEq, Repr

/-- Default VALUE_PAIR used as the out-of-range value of list indexing. -/
def dfltVP : VALUE_PAIR := ⟨0, PWType.OCTETS, 0, [], 0⟩

/-- Modelled from the spec: the DHCP dictionary namespace tag of dhcp.h (not
under src/).  Attribute codes are 54 * 65536 + inner, inner being the option
code, a header pseudo-code 256..269, or sub * 256 + 82 for Option 82
sub-options. -/
def DHCP_MAGIC_VENDOR : Nat := 54

/-- Modelled from the spec: dictionary slot of an inner code (dhcp.h macro). -/
def DHCP2ATTR (x : Nat) : Nat := DHCP_MAGIC_VENDOR * 65536 + x

/-- Modelled from the spec: test for the DHCP namespace tag (dhcp.h macro). -/
def IS_DHCP_ATTR (a : Nat) : Bool := a / 65536 == DHCP_MAGIC_VENDOR

/-- Modelled from the spec: low option byte of an attribute code (dhcp.h macro,
bitwise and with 0xff in C). -/
def DHCP_BASE_ATTR (a : Nat) : Nat := a % 256

/-- Modelled from the spec: the Option 82 sub-option number carried in an
attribute code (dhcp.h macro, shift right 8 then mask in C). -/
def DHCP_UNPACK_OPTION1 (a : Nat) : Nat := a / 256 % 256

/-- Modelled from the spec: packet-code offset of DHCP message types (dhcp.h). -/
def PW_DHCP_OFFSET : Nat := 1024

def PW_DHCP_NAK : Nat := PW_DHCP_OFFSET + 6

def PW_DHCP_OPTION_82 : Nat := 82

/-- Modelled from the spec: the plaintext-password attribute looked up by the
authentication-option branch of fr_dhcp_encode lives outside the DHCP
namespace; only its disjointness matters here. -/
def PW_CLEARTEXT_PASSWORD : Nat := 1100

def MIN_PACKET_SIZE : Nat := 244

def DEFAULT_PACKET_SIZE : Nat := 576

def MAX_PACKET_SIZE : Nat := 1460

/-- Modelled from the spec: capacity of a value-pair payload buffer (the C
sizeof(vp->vp_octets), from a header not under src/); the spec bounds opaque
payloads by 253 bytes. -/
def MAX_STRING_LEN : Nat := 253

/-- Dictionary descriptor: dictionary slot, payload type, array flag. -/
structure DICT_ATTR where
  attr : Nat
  ptype : PWType
  array : Bool
  deriving DecidableEq, Repr

/-- Modelled from the spec: a concrete dictionary (the dictionary service is an
external collaborator).  It covers the option codes exercised by the concrete
inputs of this development; types follow the spec and RFC 2132. -/
def specDict : Nat → Option DICT_ATTR
  | 1 => some ⟨DHCP2ATTR 1, PWType.IPADDR, false⟩
  | 6 => some ⟨DHCP2ATTR 6, PWType.IPADDR, true⟩
  | 26 => some ⟨DHCP2ATTR 26, PWType.SHORT, false⟩
  | 53 => some ⟨DHCP2ATTR 53, PWType.BYTE, false⟩
  | 57 => some ⟨DHCP2ATTR 57, PWType.SHORT, false⟩
  | 60 => some ⟨DHCP2ATTR 60, PWType.STRING, false⟩
  | 61 => some ⟨DHCP2ATTR 61, PWType.OCTETS, false⟩
  | 90 => some ⟨DHCP2ATTR 90, PWType.OCTETS, false⟩
  | _ => none

/-- Big-endian value of a byte list (the ntohl of a 4-byte memcpy). -/
def beNat (l : List Nat) : Nat := l.foldl (fun acc b => acc * 256 + b) 0

/-- The packet object produced by fr_dhcp_recv: raw bytes, request id (xid in
host order), packet code, and the deduplication vector. -/
structure RecvPacket where
  data : List Nat
  id : Nat
  code : Nat
  vector : List Nat
  deriving DecidableEq, Repr

/-- Validation and packet construction of fr_dhcp_recv (dhcp.c lines 144-217):
reject short datagrams, non-BOOTREQUEST, non-Ethernet, missing magic cookie,
and packets whose byte 240 is not option 53 with length byte 1 and a value
byte in 1..7. -/
def fr_dhcp_recv (d : List Nat) : Option RecvPacket :=
  if d.length < MIN_PACKET_SIZE then none
  else if byteAt d 0 != 1 then none
  else if byteAt d 1 != 1 then none
  else if byteAt d 2 != 6 then none
  else if sliceD d 236 4 != [99, 130, 83, 99] then none
  else if byteAt d 240 != 53 || byteAt d 241 != 1 ||
          byteAt d 242 == 0 || 8 ≤ byteAt d 242 then none
  else some
    { data := d
      id := beNat (sliceD d 4 4)
      code := PW_DHCP_OFFSET ||| byteAt d 242
      vector := sliceD d 28 (byteAt d 2) ++ [byteAt d 242] ++
                List.replicate (16 - byteAt d 2 - 1) 0 }

/-- Stated from the wording of claim C3: scan the TLV area from offset 240 and
decide whether Option 53 appears with exactly one byte of payload whose value
lies in 1..7.  This is the claim-side reading of Option 53 being present; it is
compared against the check fr_dhcp_recv actually performs. -/
def spec_opt53_scan (d : List Nat) : Nat → Nat → Bool
  | 0, _ => false
  | fuel + 1, off =>
    if d.length ≤ off then false
    else
      let c := byteAt d off
      if c = 0 then false
      else if c = 255 then false
      else if c = 53 then
        byteAt d (off + 1) == 1 && 1 ≤ byteAt d (off + 2) && byteAt d (off + 2) ≤ 7
      else spec_opt53_scan d fuel (off + 2 + byteAt d (off + 1))

/-- Claim-side predicate: Option 53 present, one byte long, value in 1..7. -/
def spec_option53_present (d : List Nat) : Bool := spec_opt53_scan d d.length 240

/-- Claim-side acceptance predicate of C3, following the claim word for word:
length at least 244, BOOTREQUEST, Ethernet htype and hlen, magic cookie, and
Option 53 present with a single payload byte in 1..7. -/
def spec_recv_accept (d : List Nat) : Bool :=
  MIN_PACKET_SIZE ≤ d.length && byteAt d 0 == 1 && byteAt d 1 == 1 && byteAt d 2 == 6
  && sliceD d 236 4 == [99, 130, 83, 99] && spec_option53_present d

/-- A 244-byte BOOTREQUEST header (op, htype 1, hlen 6, an xid, zero secs,
flags, ciaddr, yiaddr, siaddr, giaddr, an Ethernet chaddr, zero sname and file,
then the magic cookie), followed by the given option bytes. -/
def mkRequest (opts : List Nat) : List Nat :=
  [1, 1, 6, 0, 18, 52, 86, 120, 0, 0, 0, 0]
  ++ List.replicate 16 0
  ++ [170, 187, 204, 221, 238, 255] ++ List.replicate 10 0
  ++ List.replicate 192 0
  ++ [99, 130, 83, 99]
  ++ opts

/-- A datagram whose first option is Subnet-Mask and whose second option is a
well-formed one-byte Option 53: Option 53 is present but not first. -/
def c3Input : List Nat := mkRequest [1, 1, 0, 53, 1, 3]

/-- Failure modes of fr_dhcp_decode in this embedding.  notEthernet and
mtuTooSmall are the two explicit error returns of the C function; oobRead marks
a read of the option walk that falls outside the datagram (the C code reads
past its buffer there); nullDeref marks the entry switch falling into its
default case, after which the C code writes through a pointer that pairfree
has just nulled (dhcp.c lines 543-549). -/
inductive DecodeErr where
  | notEthernet | oobRead | nullDeref | mtuTooSmall
  deriving DecidableEq, Repr

/-- Checked read of one byte of the option area. -/
def readByte (d : List Nat) (i : Nat) : Except DecodeErr Nat :=
  match d[i]? with
  | some b => Except.ok b
  | none => Except.error DecodeErr.oobRead

/-- Checked read of n consecutive bytes of the option area. -/
def readBytesE (d : List Nat) (i : Nat) : Nat → Except DecodeErr (List Nat)
  | 0 => Except.ok []
  | n + 1 => do
    let b ← readByte d i
    let rest ← readBytesE d (i + 1) n
    pure (b :: rest)

/-- The fourteen header pseudo-attributes of fr_dhcp_decode, in source order:
dictionary code (spec section 9: 256 = opcode .. 269 = boot filename, modelled
from the spec since the dictionary is external), buffer offset, field size, and
pre-declared type (spec section 4.2). -/
def dhcp_header_table : List (Nat × Nat × Nat × PWType) :=
  [ (256, 0, 1, PWType.BYTE), (257, 1, 1, PWType.BYTE), (258, 2, 1, PWType.BYTE),
    (259, 3, 1, PWType.BYTE), (260, 4, 4, PWType.INTEGER), (261, 8, 2, PWType.SHORT),
    (262, 10, 2, PWType.SHORT), (263, 12, 4, PWType.IPADDR), (264, 16, 4, PWType.IPADDR),
    (265, 20, 4, PWType.IPADDR), (266, 24, 4, PWType.IPADDR), (267, 28, 16, PWType.OCTETS),
    (268, 44, 64, PWType.STRING), (269, 108, 128, PWType.STRING) ]

/-- Decode of one fixed-header field (dhcp.c lines 330-401).  The chaddr field
(code 267) is re-typed to ETHERNET when htype is 1 and hlen is 6; STRING fields
are NUL-truncated and dropped when empty; the OCTETS case copies hlen bytes. -/
def decodeHeaderField (d : List Nat) (e : Nat × Nat × Nat × PWType) : Option VALUE_PAIR :=
  let code := e.1
  let off := e.2.1
  let sz := e.2.2.1
  let t0 := e.2.2.2
  let t := if code = 267 ∧ byteAt d 1 = 1 ∧ byteAt d 2 = 6 then PWType.ETHERNET else t0
  match t with
  | PWType.BYTE => some ⟨DHCP2ATTR code, t, byteAt d off, [], 1⟩
  | PWType.SHORT => some ⟨DHCP2ATTR code, t, byteAt d off * 256 + byteAt d (off + 1), [], 2⟩
  | PWType.INTEGER => some ⟨DHCP2ATTR code, t, beNat (sliceD d off 4), [], 4⟩
  | PWType.IPADDR => some ⟨DHCP2ATTR code, t, 0, sliceD d off 4, 4⟩
  | PWType.STRING =>
    let s := (sliceD d off sz).takeWhile (fun b => b != 0)
    if s.length = 0 then none else some ⟨DHCP2ATTR code, t, 0, s, s.length⟩
  | PWType.OCTETS => some ⟨DHCP2ATTR code, t, 0, sliceD d off (byteAt d 2), byteAt d 2⟩
  | PWType.ETHERNET => some ⟨DHCP2ATTR code, t, 0, sliceD d off 6, 6⟩
  | PWType.DATE => none

/-- Header decode: one attribute per recognized fixed field. -/
def decodeHeader (d : List Nat) : List VALUE_PAIR :=
  dhcp_header_table.filterMap (decodeHeaderField d)

/-- Length validation of one option against its descriptor (dhcp.c lines
439-484): an array option of a fixed-width type splits into len / width
entries when aligned and falls back to raw OCTETS otherwise; a non-array
fixed-width option requires an exact width.  typed carries (entries, alen). -/
inductive OptPlan where
  | typed (num alen : Nat)
  | raw
  deriving DecidableEq, Repr

def planOption (da : DICT_ATTR) (len : Nat) : OptPlan :=
  if da.array then
    match da.ptype with
    | PWType.BYTE => OptPlan.typed len 1
    | PWType.SHORT => if len % 2 != 0 then OptPlan.raw else OptPlan.typed (len / 2) 2
    | PWType.IPADDR => if len % 4 != 0 then OptPlan.raw else OptPlan.typed (len / 4) 4
    | PWType.INTEGER => if len % 4 != 0 then OptPlan.raw else OptPlan.typed (len / 4) 4
    | PWType.DATE => if len % 4 != 0 then OptPlan.raw else OptPlan.typed (len / 4) 4
    | _ => OptPlan.typed 1 len
  else
    match da.ptype with
    | PWType.BYTE => if len != 1 then OptPlan.raw else OptPlan.typed 1 len
    | PWType.SHORT => if len != 2 then OptPlan.raw else OptPlan.typed 1 len
    | PWType.IPADDR => if len != 4 then OptPlan.raw else OptPlan.typed 1 len
    | PWType.INTEGER => if len != 4 then OptPlan.raw else OptPlan.typed 1 len
    | PWType.DATE => if len != 4 then OptPlan.raw else OptPlan.typed 1 len
    | _ => OptPlan.typed 1 len

/-- Per-value decode by type (the switch at dhcp.c lines 505-547).  The default
case (DATE and ETHERNET descriptors) frees the pair and then the C code writes
vp->length through the nulled pointer: modelled as nullDeref. -/
def decodeTyped (d : List Nat) (q alen : Nat) (t : PWType) (attr : Nat) :
    Except DecodeErr VALUE_PAIR :=
  match t with
  | PWType.BYTE => do
    let b ← readByte d q
    pure ⟨attr, t, b, [], alen⟩
  | PWType.SHORT => do
    let b0 ← readByte d q
    let b1 ← readByte d (q + 1)
    pure ⟨attr, t, b0 * 256 + b1, [], alen⟩
  | PWType.INTEGER => do
    let bs ← readBytesE d q 4
    pure ⟨attr, t, beNat bs, [], alen⟩
  | PWType.IPADDR => do
    let bs ← readBytesE d q 4
    pure ⟨attr, t, 0, bs, alen⟩
  | PWType.STRING => do
    let bs ← readBytesE d q alen
    pure ⟨attr, t, 0, bs, alen⟩
  | PWType.OCTETS => do
    let bs ← readBytesE d q alen
    pure ⟨attr, t, 0, bs, alen⟩
  | _ => Except.error DecodeErr.nullDeref

/-- One entry of a typed option (dhcp.c lines 486-549).  The Client-Identifier
fix-up: a non-array code-61 option of length 7 whose first payload byte is 1
becomes an ETHERNET pair holding payload bytes 1..6; the subsequent
vp->length = alen assignment stores length 7 on it. -/
def decodeOneEntry (d : List Nat) (da : DICT_ATTR) (q alen num : Nat) :
    Except DecodeErr VALUE_PAIR :=
  if da.attr = DHCP2ATTR 61 ∧ da.array = false ∧ alen = 7 then do
    let b0 ← readByte d q
    if b0 = 1 ∧ num = 1 then do
      let mac ← readBytesE d (q + 1) 6
      pure ⟨da.attr, PWType.ETHERNET, 0, mac, alen⟩
    else decodeTyped d q alen da.ptype da.attr
  else decodeTyped d q alen da.ptype da.attr

/-- The entry loop over an array option (first argument counts the remaining
entries, q is the offset of the current entry). -/
def decodeEntries (d : List Nat) (da : DICT_ATTR) (num alen : Nat) :
    Nat → Nat → Except DecodeErr (List VALUE_PAIR)
  | 0, _ => Except.ok []
  | k + 1, q => do
    let vp ← decodeOneEntry d da q alen num
    let rest ← decodeEntries d da num alen k (q + alen)
    pure (vp :: rest)

/-- The option walk of fr_dhcp_decode (dhcp.c lines 406-563): scan from offset
240 while bytes remain; a 0 or 255 code byte stops the walk; a length byte of
253 or more skips the option, as does a dictionary miss; otherwise the option
is split into entries per its plan.  Fuel bounds the iteration count (each
step consumes at least two of total, so fuel = data length always suffices). -/
def decodeOptLoop (dict : Nat → Option DICT_ATTR) (d : List Nat) :
    Nat → Nat → Int → Except DecodeErr (List VALUE_PAIR)
  | 0, _, _ => Except.ok []
  | fuel + 1, off, total =>
    if total ≤ 0 then Except.ok []
    else do
      let c ← readByte d off
      if c = 0 then Except.ok []
      else if c = 255 then Except.ok []
      else do
        let len ← readByte d (off + 1)
        if 253 ≤ len then
          decodeOptLoop dict d fuel (off + 2 + len) (total - 2 - (len : Int))
        else
          match dict c with
          | none => decodeOptLoop dict d fuel (off + 2 + len) (total - 2 - (len : Int))
          | some da =>
            match planOption da len with
            | OptPlan.raw => do
              let bs ← readBytesE d (off + 2) len
              let rest ← decodeOptLoop dict d fuel (off + 2 + len) (total - 2 - (len : Int))
              pure (⟨da.attr, PWType.OCTETS, 0, bs, len⟩ :: rest)
            | OptPlan.typed num alen => do
              let vps ← decodeEntries d da num alen num (off + 2)
              let rest ← decodeOptLoop dict d fuel (off + 2 + alen * num)
                           (total - 2 - ((alen * num : Nat) : Int))
              pure (vps ++ rest)

/-- First pair whose attribute code matches (the C pairfind). -/
def pairfind (vps : List VALUE_PAIR) (a : Nat) : Option VALUE_PAIR :=
  vps.find? (fun vp => vp.attrib == a)

/-- Remove every pair with the given attribute code (the C pairdelete). -/
def pairdelete (a : Nat) (vps : List VALUE_PAIR) : List VALUE_PAIR :=
  vps.filter (fun vp => vp.attrib != a)

/-- Apply f to the first pair with the given attribute code, modelling an
in-place mutation through the pointer returned by pairfind. -/
def updateFirstF (a : Nat) (f : VALUE_PAIR → VALUE_PAIR) :
    List VALUE_PAIR → List VALUE_PAIR
  | [] => []
  | vp :: rest => if vp.attrib = a then f vp :: rest else vp :: updateFirstF a f rest

/-- The C-string value of a STRING pair as compared by strcmp: the stored bytes
up to the first NUL. -/
def vpCString (vp : VALUE_PAIR) : List Nat :=
  (takePad vp.length vp.octets).takeWhile (fun b => b != 0)

/-- The broadcast-flag fix-up of fr_dhcp_decode (dhcp.c lines 569-594): when
giaddr is zero, the pair found for dictionary code 256 has value 3, and the
pair found for dictionary code 63 compares equal to the string MSFT 98, set
bit 0x8000 on the flags pair (code 262) when present and bit 0x80 on byte 10
of the datagram. -/
def msftStage (d : List Nat) (vps : List VALUE_PAIR) : List VALUE_PAIR × List Nat :=
  if sliceD d 24 4 = [0, 0, 0, 0] then
    match pairfind vps (DHCP2ATTR 256) with
    | some vp256 =>
      if vp256.lvalue = 3 then
        match pairfind vps (DHCP2ATTR 63) with
        | some v63 =>
          if vpCString v63 = [77, 83, 70, 84, 32, 57, 56] then
            (updateFirstF (DHCP2ATTR 262) (fun vp => { vp with lvalue := vp.lvalue ||| 32768 }) vps,
             d.set 10 (byteAt d 10 ||| 128))
          else (vps, d)
        | none => (vps, d)
      else (vps, d)
    | none => (vps, d)
  else (vps, d)

/-- The negotiation clamp of fr_dhcp_decode (dhcp.c lines 606-622): fail when
Interface-MTU (26) is below 576; raise Maximum-DHCP-Message-Size (57) to 576
when below it; then lower 57 to the MTU when it exceeds it. -/
def clampStage (vps : List VALUE_PAIR) : Except DecodeErr (List VALUE_PAIR) :=
  let maxms := pairfind vps (DHCP2ATTR 57)
  let mtu := pairfind vps (DHCP2ATTR 26)
  if (mtu.map (fun m => decide (m.lvalue < DEFAULT_PACKET_SIZE))).getD false then
    Except.error DecodeErr.mtuTooSmall
  else
    let mval1 := match maxms with
      | some x => if x.lvalue < DEFAULT_PACKET_SIZE then DEFAULT_PACKET_SIZE else x.lvalue
      | none => 0
    let vps1 := match maxms with
      | some x =>
        if x.lvalue < DEFAULT_PACKET_SIZE then
          updateFirstF (DHCP2ATTR 57) (fun vp => { vp with lvalue := DEFAULT_PACKET_SIZE }) vps
        else vps
      | none => vps
    match maxms, mtu with
    | some _, some m =>
      if m.lvalue < mval1 then
        Except.ok (updateFirstF (DHCP2ATTR 57) (fun vp => { vp with lvalue := m.lvalue }) vps1)
      else Except.ok vps1
    | _, _ => Except.ok vps1

/-- Result of fr_dhcp_decode: the attribute list and the (possibly fixed-up)
datagram bytes. -/
structure DecodedPacket where
  vps : List VALUE_PAIR
  data : List Nat
  deriving DecidableEq, Repr

/-- fr_dhcp_decode (dhcp.c lines 298-627): reject non-Ethernet, decode the
fourteen header fields, walk the options, apply the MSFT 98 fix-up, then the
negotiation clamp. -/
def fr_dhcp_decode (dict : Nat → Option DICT_ATTR) (d : List Nat) :
    Except DecodeErr DecodedPacket :=
  if byteAt d 1 != 1 then Except.error DecodeErr.notEthernet
  else do
    let opts ← decodeOptLoop dict d d.length 240 ((d.length : Int) - 240)
    let s := msftStage d (decodeHeader d ++ opts)
    let vps1 ← clampStage s.1
    pure ⟨vps1, s.2⟩

/-- Accepted ingress carrying DHCPREQUEST, a zero giaddr, and a
Vendor-Class-Identifier of exactly MSFT 98: the three premises of the
broadcast fix-up claim. -/
def msftInput : List Nat :=
  mkRequest ([53, 1, 3] ++ [60, 7] ++ [77, 83, 70, 84, 32, 57, 56] ++ [255])

def msftDecoded : DecodedPacket :=
  match fr_dhcp_decode specDict msftInput with
  | Except.ok p => p
  | Except.error _ => ⟨[], []⟩

/-- Accepted ingress whose Client-Identifier option is the 7-byte Ethernet
form 01 aa bb cc dd ee ff. -/
def cidInput : List Nat :=
  mkRequest ([53, 1, 1] ++ [61, 7, 1, 170, 187, 204, 221, 238, 255] ++ [255])

def cidDecoded : DecodedPacket :=
  match fr_dhcp_decode specDict cidInput with
  | Except.ok p => p
  | Except.error _ => ⟨[], []⟩

/-- Accepted 246-byte ingress on which the option walk reads offset 246, one
byte past the end of the datagram: after the message type and a two-byte
unknown option, a trailing lone code byte at offset 245 makes the walk read a
length byte at offset 246. -/
def oobInput : List Nat := mkRequest [53, 1, 1, 77, 0, 99]

/-- The qsort comparator of the encoder (dhcp.c lines 630-648): code 53
compares below everything else, code 82 above everything else, and the rest by
signed difference of the attribute codes. -/
def attr_cmp (a b : VALUE_PAIR) : Int :=
  if a.attrib = DHCP2ATTR 53 ∧ b.attrib ≠ DHCP2ATTR 53 then -1
  else if a.attrib = DHCP2ATTR 82 ∧ b.attrib ≠ DHCP2ATTR 82 then 1
  else (a.attrib : Int) - (b.attrib : Int)

/-- Sort order induced by attr_cmp. -/
def attrLe (a b : VALUE_PAIR) : Prop := attr_cmp a b ≤ 0

instance : DecidableRel attrLe :=
  fun a b => inferInstanceAs (Decidable (attr_cmp a b ≤ 0))

/-- The encode-time sort (dhcp.c lines 963-990).  The C code externalizes the
list to an array, qsorts it with attr_cmp, and re-threads it; since attr_cmp is
not a consistent comparator (see the C5 counterexample) qsort gives no
guarantee, and the sort is modelled as a deterministic stable comparison sort
on the same comparator. -/
def dhcpSort (vps : List VALUE_PAIR) : List VALUE_PAIR :=
  List.insertionSort attrLe vps

/-- Serialization of one value by type (fr_dhcp_vp2attr, dhcp.c lines
651-711): numerics in big-endian of their declared width, addresses and MAC
verbatim, STRING and OCTETS as vp->length stored bytes; the default case
(DATE) emits nothing. -/
def fr_dhcp_vp2attr (vp : VALUE_PAIR) : List Nat :=
  match vp.ptype with
  | PWType.BYTE => [vp.lvalue % 256]
  | PWType.SHORT => [vp.lvalue / 256 % 256, vp.lvalue % 256]
  | PWType.INTEGER =>
    [vp.lvalue / 16777216 % 256, vp.lvalue / 65536 % 256, vp.lvalue / 256 % 256, vp.lvalue % 256]
  | PWType.IPADDR => takePad 4 vp.octets
  | PWType.ETHERNET => takePad 6 vp.octets
  | PWType.STRING => takePad vp.length vp.octets
  | PWType.OCTETS => takePad vp.length vp.octets
  | PWType.DATE => []

/-- One emitted TLV: the code byte and the payload bytes (the length byte on
the wire is the payload length). -/
structure TLV where
  code : Nat
  payload : List Nat
  deriving DecidableEq, Repr

/-- The inner packing loop over a run of same-code pairs (dhcp.c lines
1040-1074): serialize each entry, stopping before any entry whose bytes would
push the TLV length past 255; the accumulator is the current TLV length.
Returns the packed bytes and the entries left unconsumed after a stop (the C
loop resumes the outer walk at the entry after the offending one). -/
def packEntries : List VALUE_PAIR → Nat → List Nat × List VALUE_PAIR
  | [], _ => ([], [])
  | vp :: rest, acc =>
    let bytes := fr_dhcp_vp2attr vp
    if 255 < bytes.length ∨ 255 < acc + bytes.length then ([], rest)
    else
      let res := packEntries rest (acc + bytes.length)
      (bytes ++ res.1, res.2)

/-- The Client-Identifier re-tag of the encoder (dhcp.c lines 1018-1027): any
ETHERNET pair of length 6 in a run of one entry becomes OCTETS with the byte 1
shifted in front of its six stored bytes; vp->length is not updated, so the
subsequent serialization emits only the first six storage bytes. -/
def retagClientId (vp : VALUE_PAIR) (num : Nat) : VALUE_PAIR :=
  if vp.ptype = PWType.ETHERNET ∧ vp.length = 6 ∧ num = 1 then
    { vp with ptype := PWType.OCTETS, octets := 1 :: takePad 6 vp.octets }
  else vp

/-- The attribute packing walk of fr_dhcp_encode (dhcp.c lines 1000-1082):
skip non-DHCP attributes and attributes whose inner code exceeds 255 unless
their base is 82; group the maximal run of equal codes; re-tag a lone length-6
ETHERNET pair; open the TLV (with a sub-option header when the base is 82,
which starts the length accumulator at 2); pack the run; continue after the
consumed entries.  Fuel bounds the iterations (each consumes at least one list
element, so fuel = list length suffices). -/
def packLoop : Nat → List VALUE_PAIR → List TLV
  | 0, _ => []
  | _, [] => []
  | fuel + 1, vp :: rest =>
    if IS_DHCP_ATTR vp.attrib = false then packLoop fuel rest
    else if 255 < vp.attrib % 65536 ∧ DHCP_BASE_ATTR vp.attrib ≠ PW_DHCP_OPTION_82 then
      packLoop fuel rest
    else
      let runTail := rest.takeWhile (fun w => w.attrib == vp.attrib)
      let after := rest.dropWhile (fun w => w.attrib == vp.attrib)
      let num := 1 + runTail.length
      let vp0 := retagClientId vp num
      let is82 := DHCP_BASE_ATTR vp.attrib = PW_DHCP_OPTION_82
      let res := packEntries (vp0 :: runTail) (if is82 then 2 else 0)
      let payload :=
        if is82 then DHCP_UNPACK_OPTION1 vp.attrib :: res.1.length :: res.1 else res.1
      ⟨vp.attrib % 256, payload⟩ :: packLoop fuel (res.2 ++ after)

/-- Wire bytes of a TLV list: code byte, length byte, payload for each. -/
def serializeTLVs (tlvs : List TLV) : List Nat :=
  tlvs.foldr (fun t acc => t.code :: t.payload.length :: t.payload ++ acc) []

/-- The RFC 3118 authentication-option munge applied to a code-90 pair (dhcp.c
lines 776-818): pad to 2 bytes, then (when still shorter than 3) zero the
algorithm byte and write the 8 NTP timestamp bytes, giving length 11; for the
zero sub-type, zero the RDM byte and append the plaintext password when one is
present (capped by the buffer capacity), or take length 19 with uninitialized
bytes (modelled as zeros; the C memset there has its last two arguments
swapped and writes nothing). -/
def auth90Munge (vp0 : VALUE_PAIR) (vps : List VALUE_PAIR) (ntp : List Nat) : VALUE_PAIR :=
  let vp1 := if vp0.length < 2 then
      { vp0 with octets := takePad vp0.length vp0.octets ++ List.replicate (2 - vp0.length) 0,
                 length := 2 }
    else vp0
  let vp2 := if vp1.length < 3 then
      { vp1 with octets := takePad 2 vp1.octets ++ [0] ++ takePad 8 ntp, length := 11 }
    else vp1
  if byteAt vp2.octets 0 = 0 then
    let vp3 := { vp2 with octets := (takePad vp2.length vp2.octets).set 1 0 }
    match pairfind vps PW_CLEARTEXT_PASSWORD with
    | some pass =>
      let plen := if MAX_STRING_LEN < pass.length + 11 then MAX_STRING_LEN - 11 else pass.length
      { vp3 with octets := takePad 11 vp3.octets ++ takePad plen pass.octets,
                 length := plen + 11 }
    | none =>
      { vp3 with octets := takePad 11 vp3.octets ++ List.replicate 8 0, length := 19 }
  else vp2

/-- Apply the authentication-option munge to the first code-90 pair, if any. -/
def auth90Stage (vps : List VALUE_PAIR) (ntp : List Nat) : List VALUE_PAIR :=
  match pairfind vps (DHCP2ATTR 90) with
  | some vp => updateFirstF (DHCP2ATTR 90) (fun _ => auth90Munge vp vps ntp) vps
  | none => vps

/-- The reply packet handed to fr_dhcp_encode: its attribute list, packet code,
and the caller-populated destination field read by routing rule 5. -/
structure ReplyIn where
  vps : List VALUE_PAIR
  code : Nat
  dst_ipaddr : List Nat
  deriving DecidableEq, Repr

/-- The original request as used by fr_dhcp_encode: raw bytes, the two ports,
the address the request was received on, and the socket handle. -/
structure OrigPacket where
  data : List Nat
  src_port : Nat
  dst_port : Nat
  dst_ipaddr : List Nat
  sockfd : Nat
  deriving DecidableEq, Repr

/-- The encoded reply: datagram bytes and the routing fields fr_dhcp_encode
fills in. -/
structure ReplyOut where
  data : List Nat
  data_len : Nat
  dst_ipaddr : List Nat
  src_ipaddr : List Nat
  dst_port : Nat
  src_port : Nat
  sockfd : Nat
  code : Nat
  vps : List VALUE_PAIR
  deriving DecidableEq, Repr

def dfltOut : ReplyOut := ⟨[], 0, [], [], 0, 0, 0, 0, []⟩

/-- Failure modes of fr_dhcp_encode.  missingOriginal is the explicit check at
dhcp.c line 864; nullDeref marks the dereference of the absent original that
the C code performs first, at line 766 (pairfind on original->vps). -/
inductive EncodeErr where
  | nullDeref | missingOriginal
  deriving DecidableEq, Repr

/-- The your-IP-address header field: the stored bytes of the pair with
dictionary code 264 when present, else zero (dhcp.c lines 846-853). -/
def yiaddrBytes (vps : List VALUE_PAIR) : List Nat :=
  match pairfind vps (DHCP2ATTR 264) with
  | some vp => takePad 4 vp.octets
  | none => [0, 0, 0, 0]

/-- The first 236 header bytes emitted by fr_dhcp_encode (dhcp.c lines
820-873): BOOTREPLY, Ethernet, hlen copied from the request, zero hops, xid
copied, zero secs, flags and ciaddr copied, yiaddr from the attribute list,
zero siaddr and giaddr, chaddr copied, and the 192-byte legacy area zeroed. -/
def encodeHeaderPre (vps : List VALUE_PAIR) (o : OrigPacket) : List Nat :=
  [2, 1, byteAt o.data 2, 0] ++ sliceD o.data 4 4 ++ [0, 0] ++ sliceD o.data 10 6
  ++ yiaddrBytes vps ++ [0, 0, 0, 0, 0, 0, 0, 0] ++ sliceD o.data 28 16
  ++ List.replicate 192 0

/-- Header plus the magic cookie (dhcp.c lines 875-877). -/
def encodeHeaderBytes (vps : List VALUE_PAIR) (o : OrigPacket) : List Nat :=
  encodeHeaderPre vps o ++ [99, 130, 83, 99]

/-- Byte 242 of the reply: packet code minus PW_DHCP_OFFSET, truncated to a
byte as the C uint8_t store does. -/
def msgTypeByte (code : Nat) : Nat :=
  (((code : Int) - (PW_DHCP_OFFSET : Int)) % 256).toNat

/-- The TLV list fr_dhcp_encode emits: the list after the authentication-option
munge, deletion of code 53, and the sort, packed by the attribute walk. -/
def encodeTLVs (vps90 : List VALUE_PAIR) : List TLV :=
  let sorted := dhcpSort (pairdelete (DHCP2ATTR 53) vps90)
  packLoop sorted.length sorted

/-- The unpadded datagram built by fr_dhcp_encode: header, cookie, the
message-type option first, the packed TLVs, and the end marker. -/
def encodeUnpadded (vps90 : List VALUE_PAIR) (o : OrigPacket) (code : Nat) : List Nat :=
  encodeHeaderBytes vps90 o ++ [53, 1, msgTypeByte code]
  ++ serializeTLVs (encodeTLVs vps90) ++ [255, 0]

/-- Zero-fill to DEFAULT_PACKET_SIZE when shorter (dhcp.c lines 1158-1162). -/
def padTo576 (l : List Nat) : List Nat :=
  if l.length < DEFAULT_PACKET_SIZE then
    l ++ List.replicate (DEFAULT_PACKET_SIZE - l.length) 0
  else l

/-- fr_dhcp_encode (dhcp.c lines 713-1174).  The packet code defaults to NAK
when zero; the first read of the original (pairfind on original->vps at line
766, for the maximum-message-size which is computed and never used) precedes
the missing-original check at line 864, so a missing original is a null
dereference, not the clean error; with an original present the function always
succeeds, building the datagram, padding it to 576 bytes, and filling the
routing fields per the RFC 2131 rules of lines 1104-1156. -/
def encodeResult (reply : ReplyIn) (o : OrigPacket) (ntp : List Nat) : ReplyOut :=
  let code := if reply.code = 0 then PW_DHCP_NAK else reply.code
  let vps90 := auth90Stage reply.vps ntp
  let dataF := padTo576 (encodeUnpadded vps90 o code)
  let giaddr := sliceD o.data 24 4
  let ciaddr := sliceD o.data 12 4
  let yiaddr := sliceD o.data 16 4
  let flags := byteAt o.data 10 * 256 + byteAt o.data 11
  let dst :=
    if giaddr ≠ [0, 0, 0, 0] then giaddr
    else if code = PW_DHCP_NAK then [255, 255, 255, 255]
    else if ciaddr ≠ [0, 0, 0, 0] then ciaddr
    else if flags &&& 32768 ≠ 0 then [255, 255, 255, 255]
    else if reply.dst_ipaddr = [0, 0, 0, 0] then [255, 255, 255, 255]
    else yiaddr
  { data := dataF
    data_len := dataF.length
    dst_ipaddr := dst
    src_ipaddr := o.dst_ipaddr
    dst_port := o.src_port
    src_port := o.dst_port
    sockfd := o.sockfd
    code := code
    vps := dhcpSort (pairdelete (DHCP2ATTR 53) vps90) }

def fr_dhcp_encode (reply : ReplyIn) (original : Option OrigPacket) (ntp : List Nat) :
    Except EncodeErr ReplyOut :=
  match original with
  | none => Except.error EncodeErr.nullDeref
  | some o => Except.ok (encodeResult reply o ntp)

/-- The destination selection exactly as the claim C2 words it: giaddr, then
NAK broadcast, then ciaddr, then the broadcast flag, then an unset egress
destination, else yiaddr. -/
def spec_reply_dst (giaddr ciaddr yiaddr priorDst : List Nat) (isNak : Prop)
    [Decidable isNak] (flags : Nat) : List Nat :=
  if giaddr ≠ [0, 0, 0, 0] then giaddr
  else if isNak then [255, 255, 255, 255]
  else if ciaddr ≠ [0, 0, 0, 0] then ciaddr
  else if flags &&& 32768 ≠ 0 then [255, 255, 255, 255]
  else if priorDst = [0, 0, 0, 0] then [255, 255, 255, 255]
  else yiaddr

/-- A pair stripped of its lvalue, for stating that a transformation changes
nothing but lvalues. -/
def eraseLv (vp : VALUE_PAIR) : VALUE_PAIR := { vp with lvalue := 0 }

/-- The sort-order property claimed by C5, on the list of attribute codes:
every code-53 entry precedes every other code, every code-82 entry follows
every other code, and the remaining codes are non-decreasing. -/
def c5_pair (x y : Nat) : Prop :=
  (y = DHCP2ATTR 53 → x = DHCP2ATTR 53) ∧
  (x = DHCP2ATTR 82 → y = DHCP2ATTR 82) ∧
  (x ≠ DHCP2ATTR 53 → x ≠ DHCP2ATTR 82 → y ≠ DHCP2ATTR 53 → y ≠ DHCP2ATTR 82 → x ≤ y)

instance : DecidableRel c5_pair := fun x y => by
  unfold c5_pair
  infer_instance

def c5_invariant (codes : List Nat) : Prop := codes.Pairwise c5_pair

instance (codes : List Nat) : Decidable (c5_invariant codes) := by
  unfold c5_invariant
  infer_instance

/-- Key under which the sort order on attribute codes up to 82 (53 deleted)
is an ordinary total order: 82 is mapped above everything else. -/
def keyOf (a : Nat) : Nat := if a = DHCP2ATTR 82 then DHCP2ATTR 83 else a

/-- The domain on which attr_cmp is a consistent comparator: attributes packed
from an option code of at most 82 and different from 53. -/
def C5Dom (vp : VALUE_PAIR) : Prop :=
  ∃ c, c ≤ 82 ∧ c ≠ 53 ∧ vp.attrib = DHCP2ATTR c

/-- Pairs used by the C5 counterexample and witness. -/
def vp82 : VALUE_PAIR := ⟨DHCP2ATTR 82, PWType.OCTETS, 0, [1, 2], 2⟩

def vp100 : VALUE_PAIR := ⟨DHCP2ATTR 100, PWType.OCTETS, 0, [9], 1⟩

def vp5 : VALUE_PAIR := ⟨DHCP2ATTR 5, PWType.BYTE, 1, [], 1⟩

/-- A 127-byte opaque pair; two of them with the same code pack into one TLV of
length 254. -/
def vp77 : VALUE_PAIR := ⟨DHCP2ATTR 77, PWType.OCTETS, 0, List.replicate 127 7, 127⟩

def tlv77 : TLV := ⟨77, List.replicate 127 7⟩

/-- Concrete encode of the decoded client-identifier packet, for C7. -/
def cidOrig : OrigPacket := ⟨cidInput, 68, 67, [10, 0, 0, 1], 3⟩

def cidReply : ReplyIn := ⟨cidDecoded.vps, PW_DHCP_OFFSET + 5, [0, 0, 0, 0]⟩

def cidOut : ReplyOut :=
  match fr_dhcp_encode cidReply (some cidOrig) [] with
  | Except.ok s => s
  | Except.error _ => dfltOut

/-- Concrete encode used by the C1 and C2 witnesses: a NAK reply to a plain
request. -/
def widOrig : OrigPacket := ⟨mkRequest [53, 1, 3, 255], 68, 67, [192, 0, 2, 1], 5⟩

def widReply : ReplyIn := ⟨[], PW_DHCP_NAK, [0, 0, 0, 0]⟩

def widOut : ReplyOut :=
  match fr_dhcp_encode widReply (some widOrig) [] with
  | Except.ok s => s
  | Except.error _ => dfltOut

/-- Concrete encode of two same-code 127-byte pairs, for the C9
counterexample: the packed TLV has length byte 254. -/
def c9Reply : ReplyIn := ⟨[vp77, vp77], PW_DHCP_OFFSET + 5, [0, 0, 0, 0]⟩

def c9Out : ReplyOut :=
  match fr_dhcp_encode c9Reply (some widOrig) [] with
  | Except.ok s => s
  | Except.error _ => dfltOut

/-- Attribute list for the C6 witness: a Maximum-DHCP-Message-Size of 400. -/
def c6vps : List VALUE_PAIR := [⟨DHCP2ATTR 57, PWType.SHORT, 400, [], 2⟩]

/-! Helper lemmas about byte access and list shapes. -/

theorem byteAt_append_left (l r : List Nat) (i : Nat) (h : i < l.length) :
    byteAt (l ++ r) i = byteAt l i :=
  List.getD_append l r 0 i h

theorem byteAt_append_right (l r : List Nat) (i : Nat) (h : l.length ≤ i) :
    byteAt (l ++ r) i = byteAt r (i - l.length) :=
  List.getD_append_right l r 0 i h

theorem byteAt_replicate_zero (n k : Nat) : byteAt (List.replicate n 0) k = 0 := by
  simp only [byteAt, List.getD_eq_getElem?_getD, List.getElem?_replicate]
  split <;> rfl

theorem sliceD_length (d : List Nat) (i n : Nat) : (sliceD d i n).length = n := by
  simp [sliceD]

theorem takePad_length (n : Nat) (l : List Nat) : (takePad n l).length = n := by
  simp [takePad]
  omega

theorem sliceD_zero (d : List Nat) (i : Nat) : sliceD d i 0 = [] := rfl

theorem sliceD_succ (d : List Nat) (i n : Nat) :
    sliceD d i (n + 1) = byteAt d i :: sliceD d (i + 1) n := by
  simp only [sliceD, List.range_succ_eq_map, List.map_cons, List.map_map, Nat.add_zero]
  refine congrArg (fun l => byteAt d i :: l) ?_
  apply List.map_congr_left
  intro k _
  show byteAt d (i + Nat.succ k) = byteAt d (i + 1 + k)
  congr 1
  omega

/-! Claim C3: acceptance condition of the receive operation. -/

/-- C3 counterexample: a datagram whose Option 53 is present, one byte long and
valid, but is not the first option; the claim-side acceptance predicate holds
while fr_dhcp_recv rejects it, refuting the stated if-and-only-if. -/
theorem C3_counterexample :
    spec_recv_accept c3Input = true ∧ fr_dhcp_recv c3Input = none :=
  ⟨rfl, rfl⟩

/-- C3 (amended): fr_dhcp_recv accepts a datagram if and only if its length is
at least 244, byte 0 is 1, bytes 1 and 2 are 1 and 6, the magic cookie sits at
offset 236, and the first option (at offset 240) is Option 53 with length byte
1 and a value byte in 1..7.  In particular a value byte of 8 or more is
rejected. -/
theorem C3_recv_iff (d : List Nat) :
    (fr_dhcp_recv d).isSome = true ↔
      (MIN_PACKET_SIZE ≤ d.length ∧ byteAt d 0 = 1 ∧ byteAt d 1 = 1 ∧ byteAt d 2 = 6 ∧
       sliceD d 236 4 = [99, 130, 83, 99] ∧ byteAt d 240 = 53 ∧ byteAt d 241 = 1 ∧
       1 ≤ byteAt d 242 ∧ byteAt d 242 ≤ 7) := by
  unfold fr_dhcp_recv MIN_PACKET_SIZE
  split_ifs with h1 h2 h3 h4 h5 h6 <;>
    simp_all [bne_iff_ne, Bool.or_eq_true, beq_iff_eq, decide_eq_true_eq] <;>
    omega

/-- C3 witness: the minimal well-formed request is accepted. -/
theorem C3_recv_iff_witness : (fr_dhcp_recv (mkRequest [53, 1, 1, 255])).isSome = true :=
  (C3_recv_iff (mkRequest [53, 1, 1, 255])).mpr (by decide)

/-! Claim C4: the MSFT 98 broadcast fix-up. -/

/-- C4 failing input: an accepted DHCPREQUEST with zero giaddr and
Vendor-Class-Identifier exactly MSFT 98.  All three premises of the claim
hold, decode succeeds, yet the flags attribute (code 262) keeps bit 0x8000
clear and byte 10 of the datagram stays 0: the source tests dictionary code
256 (the opcode, always 1 here) for the value 3 and looks the vendor class up
under code 63 instead of 60, so the fix-up never applies to an accepted
datagram. -/
theorem C4_msft_fixup_not_applied :
    (fr_dhcp_recv msftInput).isSome = true ∧
    sliceD msftInput 24 4 = [0, 0, 0, 0] ∧
    (pairfind msftDecoded.vps (DHCP2ATTR 53)).map (fun vp => vp.lvalue) = some 3 ∧
    (pairfind msftDecoded.vps (DHCP2ATTR 60)).map (fun vp => vpCString vp) =
      some [77, 83, 70, 84, 32, 57, 56] ∧
    fr_dhcp_decode specDict msftInput = Except.ok msftDecoded ∧
    (pairfind msftDecoded.vps (DHCP2ATTR 262)).map (fun vp => vp.lvalue &&& 32768) = some 0 ∧
    byteAt msftDecoded.data 10 = 0 :=
  ⟨rfl, rfl, rfl, rfl, rfl, rfl, rfl⟩

/-! Claim C7: the Client-Identifier round trip. -/

/-- C7 failing input: the TLV 61 07 01 aa bb cc dd ee ff.  Decode does yield a
single ETHERNET pair whose stored value is payload bytes 1..6, but stores
length 7 on it (vp->length = alen runs after the fix-up); the encoder re-tags
only pairs of length 6, so the decoded pair is serialized as a plain ETHERNET
value and the round trip produces 61 06 aa bb cc dd ee ff instead of the
original 7-byte payload. -/
theorem C7_clientid_roundtrip_broken :
    (fr_dhcp_recv cidInput).isSome = true ∧
    sliceD cidInput 243 9 = [61, 7, 1, 170, 187, 204, 221, 238, 255] ∧
    fr_dhcp_decode specDict cidInput = Except.ok cidDecoded ∧
    pairfind cidDecoded.vps (DHCP2ATTR 61) =
      some ⟨DHCP2ATTR 61, PWType.ETHERNET, 0, [170, 187, 204, 221, 238, 255], 7⟩ ∧
    fr_dhcp_encode cidReply (some cidOrig) [] = Except.ok cidOut ∧
    sliceD cidOut.data 243 8 = [61, 6, 170, 187, 204, 221, 238, 255] ∧
    sliceD cidOut.data 243 9 ≠ sliceD cidInput 243 9 := by
  refine ⟨rfl, rfl, rfl, rfl, rfl, rfl, ?_⟩
  decide

/-! Claim C8: encode without an original request. -/

/-- C8: calling fr_dhcp_encode without an original is not the clean
MissingOriginal failure the claim describes: the first use of the original
(the pairfind on original->vps at dhcp.c line 766) precedes the null check at
line 864, so the call dereferences the absent original. -/
theorem C8_encode_without_original (reply : ReplyIn) (ntp : List Nat) :
    fr_dhcp_encode reply none ntp = Except.error EncodeErr.nullDeref ∧
    fr_dhcp_encode reply none ntp ≠ Except.error EncodeErr.missingOriginal := by
  refine ⟨rfl, ?_⟩
  intro h
  simp [fr_dhcp_encode] at h

/-! Claim C10: bounds of the option decode walk. -/

/-- C10 failing input: a 246-byte datagram accepted by the receive validation
on which the option walk reads offset 246, one byte past the end: after the
message-type TLV and a two-byte option, a lone trailing code byte at offset
245 is neither 0 nor 255, so the walk reads its length byte at offset 246.
In the total embedding the out-of-range branch is reached. -/
theorem C10_option_walk_oob :
    (fr_dhcp_recv oobInput).isSome = true ∧ oobInput.length = 246 ∧
    fr_dhcp_decode specDict oobInput = Except.error DecodeErr.oobRead :=
  ⟨rfl, rfl, rfl⟩

/-! Helper lemmas about updateFirstF, for claim C6. -/

theorem updateFirstF_getD_ne (a : Nat) (f : VALUE_PAIR → VALUE_PAIR)
    (l : List VALUE_PAIR) (i : Nat) (h : (l.getD i dfltVP).attrib ≠ a) :
    (updateFirstF a f l).getD i dfltVP = l.getD i dfltVP := by
  induction l generalizing i with
  | nil => rfl
  | cons vp rest ih =>
    unfold updateFirstF
    by_cases hv : vp.attrib = a
    · rw [if_pos hv]
      cases i with
      | zero => exact absurd hv (by simpa using h)
      | succ j => simp [List.getD_cons_succ]
    · rw [if_neg hv]
      cases i with
      | zero => simp [List.getD_cons_zero]
      | succ j =>
        simp only [List.getD_cons_succ]
        exact ih j (by simpa using h)

theorem updateFirstF_lv_getD (a : Nat) (g : VALUE_PAIR → Nat)
    (l : List VALUE_PAIR) (i : Nat) :
    eraseLv ((updateFirstF a (fun vp => { vp with lvalue := g vp }) l).getD i dfltVP) =
    eraseLv (l.getD i dfltVP) := by
  induction l generalizing i with
  | nil => rfl
  | cons vp rest ih =>
    unfold updateFirstF
    by_cases hv : vp.attrib = a
    · rw [if_pos hv]
      cases i with
      | zero => simp [List.getD_cons_zero, eraseLv]
      | succ j => simp [List.getD_cons_succ]
    · rw [if_neg hv]
      cases i with
      | zero => simp [List.getD_cons_zero]
      | succ j =>
        simp only [List.getD_cons_succ]
        exact ih j

theorem updateFirstF_lv_attrib (a : Nat) (g : VALUE_PAIR → Nat)
    (l : List VALUE_PAIR) (i : Nat) :
    ((updateFirstF a (fun vp => { vp with lvalue := g vp }) l).getD i dfltVP).attrib =
    (l.getD i dfltVP).attrib := by
  have h := congrArg VALUE_PAIR.attrib (updateFirstF_lv_getD a g l i)
  simpa [eraseLv] using h

/-- Every successful clamp result is the input list, one lvalue rewrite of its
first code-57 pair, or two such rewrites in sequence. -/
theorem clampStage_ok_cases (vps out : List VALUE_PAIR)
    (h : clampStage vps = Except.ok out) :
    out = vps ∨
    (∃ v, out = updateFirstF (DHCP2ATTR 57) (fun vp => { vp with lvalue := v }) vps) ∨
    (∃ v w, out = updateFirstF (DHCP2ATTR 57) (fun vp => { vp with lvalue := v })
        (updateFirstF (DHCP2ATTR 57) (fun vp => { vp with lvalue := w }) vps)) := by
  unfold clampStage at h
  cases h57 : pairfind vps (DHCP2ATTR 57) with
  | none =>
    rw [h57] at h
    cases h26 : pairfind vps (DHCP2ATTR 26) with
    | none =>
      rw [h26] at h
      simp at h
      exact Or.inl h.symm
    | some m =>
      rw [h26] at h
      by_cases hm : m.lvalue < DEFAULT_PACKET_SIZE
      · simp [hm] at h
      · simp [hm] at h
        exact Or.inl h.symm
  | some x =>
    rw [h57] at h
    cases h26 : pairfind vps (DHCP2ATTR 26) with
    | none =>
      rw [h26] at h
      by_cases hx : x.lvalue < DEFAULT_PACKET_SIZE
      · simp [hx] at h
        exact Or.inr (Or.inl ⟨_, h.symm⟩)
      · simp [hx] at h
        exact Or.inl h.symm
    | some m =>
      rw [h26] at h
      by_cases hm : m.lvalue < DEFAULT_PACKET_SIZE
      · simp [hm] at h
      · by_cases hx : x.lvalue < DEFAULT_PACKET_SIZE
        · simp [hm, hx] at h
          exact Or.inr (Or.inl ⟨_, h.symm⟩)
        · simp [hm, hx] at h
          by_cases hc : m.lvalue < x.lvalue
          · simp [hc] at h
            exact Or.inr (Or.inl ⟨_, h.symm⟩)
          · simp [hc] at h
            exact Or.inl h.symm

/-! Claim C6: the negotiation clamp of decode. -/

/-- C6: behaviour of the clamp step of fr_dhcp_decode.  An Interface-MTU (26)
below 576 is a fatal decode failure; a Maximum-DHCP-Message-Size (57) below
576 is coerced to 576 (when the MTU does not fail first); a 57 exceeding a
present 26 is coerced down to the MTU value; and any successful clamp changes
nothing but the lvalue of the first code-57 pair: pairs at positions whose
code is not 57 are returned unchanged, and every position keeps its code,
type, payload and length. -/
theorem C6_negotiation_clamp (vps : List VALUE_PAIR) :
    (∀ m, pairfind vps (DHCP2ATTR 26) = some m → m.lvalue < DEFAULT_PACKET_SIZE →
       clampStage vps = Except.error DecodeErr.mtuTooSmall) ∧
    (∀ x, pairfind vps (DHCP2ATTR 57) = some x → x.lvalue < DEFAULT_PACKET_SIZE →
       (∀ m, pairfind vps (DHCP2ATTR 26) = some m → DEFAULT_PACKET_SIZE ≤ m.lvalue) →
       clampStage vps =
         Except.ok (updateFirstF (DHCP2ATTR 57)
           (fun vp => { vp with lvalue := DEFAULT_PACKET_SIZE }) vps)) ∧
    (∀ x m, pairfind vps (DHCP2ATTR 57) = some x → pairfind vps (DHCP2ATTR 26) = some m →
       DEFAULT_PACKET_SIZE ≤ x.lvalue → DEFAULT_PACKET_SIZE ≤ m.lvalue →
       m.lvalue < x.lvalue →
       clampStage vps =
         Except.ok (updateFirstF (DHCP2ATTR 57)
           (fun vp => { vp with lvalue := m.lvalue }) vps)) ∧
    (∀ out, clampStage vps = Except.ok out →
       (∀ i, (vps.getD i dfltVP).attrib ≠ DHCP2ATTR 57 →
          out.getD i dfltVP = vps.getD i dfltVP) ∧
       (∀ i, eraseLv (out.getD i dfltVP) = eraseLv (vps.getD i dfltVP))) := by
  refine ⟨?_, ?_, ?_, ?_⟩
  · intro m hm hlt
    unfold clampStage
    rw [hm]
    simp [hlt]
  · intro x hx hltx hmge
    unfold clampStage
    rw [hx]
    cases h26 : pairfind vps (DHCP2ATTR 26) with
    | none => simp [hltx]
    | some m =>
      have hge := hmge m h26
      have : ¬ m.lvalue < DEFAULT_PACKET_SIZE := by omega
      simp [hltx, this]
  · intro x m hx hm hgex hgem hlt
    unfold clampStage
    rw [hx, hm]
    have h1 : ¬ m.lvalue < DEFAULT_PACKET_SIZE := by omega
    have h2 : ¬ x.lvalue < DEFAULT_PACKET_SIZE := by omega
    simp [h1, h2, hlt]
  · intro out hout
    rcases clampStage_ok_cases vps out hout with h | ⟨v, h⟩ | ⟨v, w, h⟩
    · subst h
      exact ⟨fun i _ => rfl, fun i => rfl⟩
    · subst h
      exact ⟨fun i hi => updateFirstF_getD_ne _ _ _ _ hi,
             fun i => updateFirstF_lv_getD _ (fun _ => v) _ _⟩
    · subst h
      constructor
      · intro i hi
        have e1 := updateFirstF_getD_ne (DHCP2ATTR 57)
          (fun vp => { vp with lvalue := w }) vps i hi
        have hi2 : ((updateFirstF (DHCP2ATTR 57)
            (fun vp => { vp with lvalue := w }) vps).getD i dfltVP).attrib ≠
            DHCP2ATTR 57 := by
          rw [e1]
          exact hi
        have e2 := updateFirstF_getD_ne (DHCP2ATTR 57)
          (fun vp => { vp with lvalue := v })
          (updateFirstF (DHCP2ATTR 57) (fun vp => { vp with lvalue := w }) vps) i hi2
        rw [e2, e1]
      · intro i
        have e1 := updateFirstF_lv_getD (DHCP2ATTR 57) (fun _ => w) vps i
        have e2 := updateFirstF_lv_getD (DHCP2ATTR 57) (fun _ => v)
          (updateFirstF (DHCP2ATTR 57) (fun vp => { vp with lvalue := w }) vps) i
        rw [e2, e1]

/-- C6 witness: a list holding only a Maximum-DHCP-Message-Size of 400 is
clamped to 576. -/
theorem C6_negotiation_clamp_witness :
    clampStage c6vps =
      Except.ok (updateFirstF (DHCP2ATTR 57)
        (fun vp => { vp with lvalue := DEFAULT_PACKET_SIZE }) c6vps) :=
  (C6_negotiation_clamp c6vps).2.1 ⟨DHCP2ATTR 57, PWType.SHORT, 400, [], 2⟩ rfl
    (by decide) (fun m hm => by
      simp [pairfind, c6vps, DHCP2ATTR, DHCP_MAGIC_VENDOR] at hm)

/-! Claim C9: bounds of the TLV packing. -/

theorem packEntries_fst_length (entries : List VALUE_PAIR) (acc : Nat) (h : acc ≤ 255) :
    (packEntries entries acc).1.length ≤ 255 - acc := by
  induction entries generalizing acc with
  | nil => simp [packEntries]
  | cons vp rest ih =>
    unfold packEntries
    by_cases hc : 255 < (fr_dhcp_vp2attr vp).length ∨ 255 < acc + (fr_dhcp_vp2attr vp).length
    · rw [if_pos hc]
      simp
    · rw [if_neg hc]
      push_neg at hc
      have hrec := ih (acc + (fr_dhcp_vp2attr vp).length) (by omega)
      simp only [List.length_append]
      omega

/-- C9 (amended): every TLV emitted by the attribute packing walk of
fr_dhcp_encode has a payload of at most 255 bytes, hence a length byte of at
most 255: packing a run stops before any entry that would push the length past
255 (the Option 82 sub-option header counting two bytes). -/
theorem C9_tlv_length_bound (fuel : Nat) (vps : List VALUE_PAIR) (t : TLV)
    (ht : t ∈ packLoop fuel vps) : t.payload.length ≤ 255 := by
  induction fuel generalizing vps with
  | zero => simp [packLoop] at ht
  | succ n ih =>
    cases vps with
    | nil => simp [packLoop] at ht
    | cons vp rest =>
      rw [packLoop] at ht
      by_cases h1 : IS_DHCP_ATTR vp.attrib = false
      · rw [if_pos h1] at ht
        exact ih _ ht
      · rw [if_neg h1] at ht
        by_cases h2 : 255 < vp.attrib % 65536 ∧ DHCP_BASE_ATTR vp.attrib ≠ PW_DHCP_OPTION_82
        · rw [if_pos h2] at ht
          exact ih _ ht
        · rw [if_neg h2] at ht
          simp only [List.mem_cons] at ht
          cases ht with
          | inl heq =>
            subst heq
            by_cases h82 : DHCP_BASE_ATTR vp.attrib = PW_DHCP_OPTION_82
            · simp only [if_pos h82, List.length_cons]
              have hb := packEntries_fst_length
                (retagClientId vp (1 + (rest.takeWhile
                  (fun w => w.attrib == vp.attrib)).length) ::
                  rest.takeWhile (fun w => w.attrib == vp.attrib))
                2 (by omega)
              omega
            · simp only [if_neg h82]
              have hb := packEntries_fst_length
                (retagClientId vp (1 + (rest.takeWhile
                  (fun w => w.attrib == vp.attrib)).length) ::
                  rest.takeWhile (fun w => w.attrib == vp.attrib))
                0 (by omega)
              omega
          | inr hmem =>
            exact ih _ hmem

/-- C9 counterexample: two opaque 127-byte pairs of the same code pack into a
single TLV whose length byte is 254, exceeding the claimed bound of 253 (also
shown on the full encoded datagram, where the length byte of the packed TLV
sits at offset 244). -/
theorem C9_counterexample :
    (packLoop 2 [vp77, vp77]).map (fun t => t.payload.length) = [254] ∧
    sliceD c9Out.data 243 2 = [77, 254] ∧ ¬ (254 ≤ 253) :=
  ⟨rfl, rfl, by decide⟩

/-- C9 witness: a single packed TLV, with its bound. -/
theorem C9_tlv_length_bound_witness :
    tlv77 ∈ packLoop 1 [vp77] ∧ tlv77.payload.length ≤ 255 :=
  ⟨by decide, C9_tlv_length_bound 1 [vp77] tlv77 (by decide)⟩

/-! Claim C5: the encode-time sort order.  attr_cmp is not a consistent
comparator (attr_cmp of an 82-pair against anything else returns +1, while
attr_cmp of a code above 82 against an 82-pair also returns +1), so the claimed
order fails outside the domain of codes up to 82. -/

theorem pairwise_orderedInsert_of {α : Type} (r : α → α → Prop) [DecidableRel r]
    (P : α → Prop)
    (total : ∀ a b, P a → P b → r a b ∨ r b a)
    (trans : ∀ a b c, P a → P b → P c → r a b → r b c → r a c)
    (a : α) (l : List α) (ha : P a) (hl : ∀ x ∈ l, P x) (hp : l.Pairwise r) :
    (List.orderedInsert r a l).Pairwise r := by
  induction l with
  | nil => simp
  | cons b t ih =>
    rw [List.orderedInsert]
    by_cases hab : r a b
    · rw [if_pos hab]
      constructor
      · intro x hx
        rcases List.mem_cons.mp hx with rfl | hxt
        · exact hab
        · have hbx := (List.pairwise_cons.mp hp).1 x hxt
          exact trans a b x ha (hl b (by simp)) (hl x (by simp [hxt])) hab hbx
      · exact hp
    · rw [if_neg hab]
      constructor
      · intro x hx
        rcases (List.mem_orderedInsert r).mp hx with heq | hxt
        · rw [heq]
          rcases total a b ha (hl b (by simp)) with hr | hr
          · exact absurd hr hab
          · exact hr
        · exact (List.pairwise_cons.mp hp).1 x hxt
      · exact ih (fun x hx => hl x (by simp [hx])) (List.pairwise_cons.mp hp).2

theorem pairwise_insertionSort_of {α : Type} (r : α → α → Prop) [DecidableRel r]
    (P : α → Prop)
    (total : ∀ a b, P a → P b → r a b ∨ r b a)
    (trans : ∀ a b c, P a → P b → P c → r a b → r b c → r a c)
    (l : List α) (hl : ∀ x ∈ l, P x) :
    (List.insertionSort r l).Pairwise r := by
  induction l with
  | nil => simp
  | cons a t ih =>
    simp only [List.insertionSort]
    refine pairwise_orderedInsert_of r P total trans a _ (hl a (by simp)) ?_ ?_
    · intro x hx
      exact hl x (List.mem_cons_of_mem a ((List.perm_insertionSort r t).mem_iff.mp hx))
    · exact ih (fun x hx => hl x (by simp [hx]))

theorem attrLe_key (a b : VALUE_PAIR) (ha : C5Dom a) (hb : C5Dom b) :
    attrLe a b ↔ keyOf a.attrib ≤ keyOf b.attrib := by
  obtain ⟨ca, hca, hca53, hea⟩ := ha
  obtain ⟨cb, hcb, hcb53, heb⟩ := hb
  unfold attrLe attr_cmp keyOf
  rw [hea, heb]
  unfold DHCP2ATTR DHCP_MAGIC_VENDOR
  split_ifs <;> omega

/-- C5 counterexample: the outbound list holding a code-100 pair followed by a
code-82 pair.  Encode deletes no pair (neither is 53) and the sort yields the
82-pair first, so an attribute with code 82 precedes one with a different
code, refuting the claimed order. -/
theorem C5_counterexample :
    ¬ c5_invariant ((dhcpSort (pairdelete (DHCP2ATTR 53) [vp100, vp82])).map
      (fun vp => vp.attrib)) := by decide

/-- C5 (amended): for outbound lists all of whose attribute codes come from
option codes at most 82, the list sorted at encode time (after the deletion of
code 53, which leaves the code-53 clause vacuous) satisfies the claimed order:
code-82 pairs follow all others and the remaining codes are non-decreasing. -/
theorem C5_sort_invariant (vps : List VALUE_PAIR)
    (h : ∀ vp ∈ vps, ∃ c, c ≤ 82 ∧ vp.attrib = DHCP2ATTR c) :
    c5_invariant ((dhcpSort (pairdelete (DHCP2ATTR 53) vps)).map
      (fun vp => vp.attrib)) := by
  have hdom : ∀ vp ∈ pairdelete (DHCP2ATTR 53) vps, C5Dom vp := by
    intro vp hvp
    rw [pairdelete, List.mem_filter] at hvp
    obtain ⟨hmem, hne⟩ := hvp
    obtain ⟨c, hc, he⟩ := h vp hmem
    refine ⟨c, hc, ?_, he⟩
    intro hc53
    subst hc53
    rw [he] at hne
    simp at hne
  have htotal : ∀ a b, C5Dom a → C5Dom b → attrLe a b ∨ attrLe b a := by
    intro a b ha hb
    rcases Nat.le_total (keyOf a.attrib) (keyOf b.attrib) with hk | hk
    · exact Or.inl ((attrLe_key a b ha hb).mpr hk)
    · exact Or.inr ((attrLe_key b a hb ha).mpr hk)
  have htrans : ∀ a b c, C5Dom a → C5Dom b → C5Dom c →
      attrLe a b → attrLe b c → attrLe a c := by
    intro a b c ha hb hc hab hbc
    exact (attrLe_key a c ha hc).mpr
      (le_trans ((attrLe_key a b ha hb).mp hab) ((attrLe_key b c hb hc).mp hbc))
  have hpw : (dhcpSort (pairdelete (DHCP2ATTR 53) vps)).Pairwise attrLe :=
    pairwise_insertionSort_of attrLe C5Dom htotal htrans _ hdom
  have hdom2 : ∀ vp ∈ dhcpSort (pairdelete (DHCP2ATTR 53) vps), C5Dom vp := by
    intro vp hvp
    unfold dhcpSort at hvp
    exact hdom vp ((List.perm_insertionSort attrLe _).mem_iff.mp hvp)
  unfold c5_invariant
  rw [List.pairwise_map]
  refine hpw.imp_of_mem ?_
  intro a b hma hmb hab
  have hda := hdom2 a hma
  have hdb := hdom2 b hmb
  have hk := (attrLe_key a b hda hdb).mp hab
  obtain ⟨ca, hca, hca53, hea⟩ := hda
  obtain ⟨cb, hcb, hcb53, heb⟩ := hdb
  unfold c5_pair
  unfold keyOf at hk
  rw [hea, heb] at hk ⊢
  unfold DHCP2ATTR DHCP_MAGIC_VENDOR at hk ⊢
  split_ifs at hk <;> exact ⟨by omega, by omega, by omega⟩

/-- C5 witness: a list of a code-82 pair and a code-5 pair, sorted. -/
theorem C5_sort_invariant_witness :
    c5_invariant ((dhcpSort (pairdelete (DHCP2ATTR 53) [vp82, vp5])).map
      (fun vp => vp.attrib)) :=
  C5_sort_invariant [vp82, vp5] (by
    intro vp hvp
    rcases List.mem_cons.mp hvp with rfl | hvp2
    · exact ⟨82, by omega, rfl⟩
    · rcases List.mem_cons.mp hvp2 with rfl | hvp3
      · exact ⟨5, by omega, rfl⟩
      · cases hvp3)

/-! Claim C2: reply routing. -/

/-- C2: for every successful encode of a reply (with a meaningful packet code;
a zero code is first defaulted to NAK) the destination address follows the six
claimed rules in order, the ports are swapped from the ingress, the egress
source address is the ingress destination address, and the socket handle is
inherited. -/
theorem C2_reply_routing (reply : ReplyIn) (o : OrigPacket) (ntp : List Nat)
    (out : ReplyOut) (hcode : reply.code ≠ 0)
    (h : fr_dhcp_encode reply (some o) ntp = Except.ok out) :
    out.dst_ipaddr = spec_reply_dst (sliceD o.data 24 4) (sliceD o.data 12 4)
        (sliceD o.data 16 4) reply.dst_ipaddr (reply.code = PW_DHCP_NAK)
        (byteAt o.data 10 * 256 + byteAt o.data 11) ∧
    out.dst_port = o.src_port ∧ out.src_port = o.dst_port ∧
    out.src_ipaddr = o.dst_ipaddr ∧ out.sockfd = o.sockfd := by
  simp only [fr_dhcp_encode] at h
  injection h with h
  subst h
  refine ⟨?_, rfl, rfl, rfl, rfl⟩
  simp only [encodeResult]
  rw [if_neg hcode]
  rfl

/-- C2 witness: a concrete NAK reply to a plain request is broadcast and the
ports are swapped. -/
theorem C2_reply_routing_witness :
    widOut.dst_ipaddr = spec_reply_dst (sliceD widOrig.data 24 4)
        (sliceD widOrig.data 12 4) (sliceD widOrig.data 16 4) widReply.dst_ipaddr
        (widReply.code = PW_DHCP_NAK)
        (byteAt widOrig.data 10 * 256 + byteAt widOrig.data 11) ∧
    widOut.dst_port = widOrig.src_port ∧ widOut.src_port = widOrig.dst_port ∧
    widOut.src_ipaddr = widOrig.dst_ipaddr ∧ widOut.sockfd = widOrig.sockfd :=
  C2_reply_routing widReply widOrig [] widOut (by decide) (by rfl)

/-! Claim C1: shape of every encoded datagram. -/

theorem yiaddrBytes_length (vps : List VALUE_PAIR) : (yiaddrBytes vps).length = 4 := by
  unfold yiaddrBytes
  cases pairfind vps (DHCP2ATTR 264) with
  | none => rfl
  | some vp => simp [takePad_length]

theorem encodeHeaderPre_length (vps : List VALUE_PAIR) (o : OrigPacket) :
    (encodeHeaderPre vps o).length = 236 := by
  simp [encodeHeaderPre, sliceD_length, yiaddrBytes_length]

theorem encodeUnpadded_length (vps90 : List VALUE_PAIR) (o : OrigPacket) (code : Nat) :
    (encodeUnpadded vps90 o code).length =
      245 + (serializeTLVs (encodeTLVs vps90)).length := by
  simp [encodeUnpadded, encodeHeaderBytes, encodeHeaderPre_length]
  omega

theorem padTo576_facts (U : List Nat) :
    DEFAULT_PACKET_SIZE ≤ (padTo576 U).length ∧
    (∀ i, i < U.length → byteAt (padTo576 U) i = byteAt U i) ∧
    (∀ j, U.length ≤ j → j < (padTo576 U).length → byteAt (padTo576 U) j = 0) ∧
    (U.length < DEFAULT_PACKET_SIZE → (padTo576 U).length = DEFAULT_PACKET_SIZE) ∧
    U.length ≤ (padTo576 U).length := by
  unfold padTo576
  by_cases hlt : U.length < DEFAULT_PACKET_SIZE
  · rw [if_pos hlt]
    refine ⟨?_, ?_, ?_, ?_, ?_⟩
    · simp
      omega
    · intro i hi
      exact byteAt_append_left _ _ _ hi
    · intro j hj hjlen
      rw [byteAt_append_right _ _ _ hj]
      exact byteAt_replicate_zero _ _
    · simp
      omega
    · simp
  · rw [if_neg hlt]
    exact ⟨by omega, fun i _ => rfl, fun j hj hjl => by omega, fun hc => by omega,
           Nat.le_refl _⟩

theorem encodeUnpadded_split (vps90 : List VALUE_PAIR) (o : OrigPacket) (code : Nat) :
    encodeUnpadded vps90 o code =
      encodeHeaderPre vps90 o ++
        ([99, 130, 83, 99] ++ ([53, 1, msgTypeByte code] ++
          (serializeTLVs (encodeTLVs vps90) ++ [255, 0]))) := by
  simp [encodeUnpadded, encodeHeaderBytes, List.append_assoc]

theorem encodeHeaderPre_byte0 (vps : List VALUE_PAIR) (o : OrigPacket) :
    byteAt (encodeHeaderPre vps o) 0 = 2 := by
  simp [encodeHeaderPre, byteAt]

theorem encodeUnpadded_facts (vps90 : List VALUE_PAIR) (o : OrigPacket) (code : Nat) :
    byteAt (encodeUnpadded vps90 o code) 0 = 2 ∧
    byteAt (encodeUnpadded vps90 o code) 236 = 99 ∧
    byteAt (encodeUnpadded vps90 o code) 237 = 130 ∧
    byteAt (encodeUnpadded vps90 o code) 238 = 83 ∧
    byteAt (encodeUnpadded vps90 o code) 239 = 99 ∧
    byteAt (encodeUnpadded vps90 o code) 240 = 53 ∧
    byteAt (encodeUnpadded vps90 o code) 241 = 1 ∧
    byteAt (encodeUnpadded vps90 o code) ((encodeUnpadded vps90 o code).length - 2) = 255 ∧
    byteAt (encodeUnpadded vps90 o code) ((encodeUnpadded vps90 o code).length - 1) = 0 ∧
    245 ≤ (encodeUnpadded vps90 o code).length := by
  have hpre := encodeHeaderPre_length vps90 o
  have hlen := encodeUnpadded_length vps90 o code
  have hsplit := encodeUnpadded_split vps90 o code
  have hcook : ∀ k, k < 9 →
      byteAt (encodeUnpadded vps90 o code) (236 + k) =
      byteAt ([99, 130, 83, 99] ++ ([53, 1, msgTypeByte code] ++
        (serializeTLVs (encodeTLVs vps90) ++ [255, 0]))) k := by
    intro k hk
    rw [hsplit, byteAt_append_right _ _ _ (by rw [hpre]; omega)]
    congr 1
    rw [hpre]
    omega
  refine ⟨?_, ?_, ?_, ?_, ?_, ?_, ?_, ?_, ?_, by omega⟩
  · rw [hsplit, byteAt_append_left _ _ _ (by rw [hpre]; omega)]
    exact encodeHeaderPre_byte0 vps90 o
  · have h := hcook 0 (by omega)
    rw [show (236 : Nat) + 0 = 236 from rfl] at h
    rw [h]
    rfl
  · have h := hcook 1 (by omega)
    rw [show (236 : Nat) + 1 = 237 from rfl] at h
    rw [h]
    rfl
  · have h := hcook 2 (by omega)
    rw [show (236 : Nat) + 2 = 238 from rfl] at h
    rw [h]
    rfl
  · have h := hcook 3 (by omega)
    rw [show (236 : Nat) + 3 = 239 from rfl] at h
    rw [h]
    rfl
  · have h := hcook 4 (by omega)
    rw [show (236 : Nat) + 4 = 240 from rfl] at h
    rw [h]
    rfl
  · have h := hcook 5 (by omega)
    rw [show (236 : Nat) + 5 = 241 from rfl] at h
    rw [h]
    rfl
  · set s := (serializeTLVs (encodeTLVs vps90)).length with hs
    have e1 : (encodeUnpadded vps90 o code).length - 2 = 236 + (7 + s) := by omega
    rw [e1]
    rw [hsplit, byteAt_append_right _ _ _ (by rw [hpre]; omega)]
    have e2 : 236 + (7 + s) - (encodeHeaderPre vps90 o).length = 4 + (3 + s) := by
      rw [hpre]
      omega
    rw [e2, byteAt_append_right _ _ _ (by simp only [List.length_cons, List.length_nil]; omega)]
    have e3 : 4 + (3 + s) - ([99, 130, 83, 99] : List Nat).length = 3 + s := by
      simp
    rw [e3, byteAt_append_right _ _ _ (by simp only [List.length_cons, List.length_nil]; omega)]
    have e4 : 3 + s - ([53, 1, msgTypeByte code] : List Nat).length = s := by
      simp
    rw [e4, byteAt_append_right _ _ _ (by omega)]
    have e5 : s - (serializeTLVs (encodeTLVs vps90)).length = 0 := by omega
    rw [e5]
    rfl
  · set s := (serializeTLVs (encodeTLVs vps90)).length with hs
    have e1 : (encodeUnpadded vps90 o code).length - 1 = 236 + (8 + s) := by omega
    rw [e1]
    rw [hsplit, byteAt_append_right _ _ _ (by rw [hpre]; omega)]
    have e2 : 236 + (8 + s) - (encodeHeaderPre vps90 o).length = 4 + (4 + s) := by
      rw [hpre]
      omega
    rw [e2, byteAt_append_right _ _ _ (by simp only [List.length_cons, List.length_nil]; omega)]
    have e3 : 4 + (4 + s) - ([99, 130, 83, 99] : List Nat).length = 4 + s := by
      simp
    rw [e3, byteAt_append_right _ _ _ (by simp only [List.length_cons, List.length_nil]; omega)]
    have e4 : 4 + s - ([53, 1, msgTypeByte code] : List Nat).length = 1 + s := by
      simp
      omega
    rw [e4, byteAt_append_right _ _ _ (by omega)]
    have e5 : 1 + s - (serializeTLVs (encodeTLVs vps90)).length = 1 := by omega
    rw [e5]
    rfl

/-- C1: every datagram produced by a successful encode starts with BOOTREPLY,
carries the magic cookie at bytes 236..239, emits the DHCP-Message-Type option
first (byte 240 is 53, byte 241 is 1), is at least 576 bytes long, and its
option area ends with the marker 255 0 followed only by zero bytes; whenever
the unpadded datagram is shorter than 576 bytes the result is padded with
zeros to exactly 576. -/
theorem C1_encode_datagram_shape (reply : ReplyIn) (o : OrigPacket) (ntp : List Nat)
    (out : ReplyOut) (h : fr_dhcp_encode reply (some o) ntp = Except.ok out) :
    byteAt out.data 0 = 2 ∧
    sliceD out.data 236 4 = [99, 130, 83, 99] ∧
    byteAt out.data 240 = 53 ∧
    byteAt out.data 241 = 1 ∧
    DEFAULT_PACKET_SIZE ≤ out.data.length ∧
    ∃ m, 243 ≤ m ∧ m + 2 ≤ out.data.length ∧
      byteAt out.data m = 255 ∧ byteAt out.data (m + 1) = 0 ∧
      (∀ j, m + 2 ≤ j → j < out.data.length → byteAt out.data j = 0) ∧
      (m + 2 < DEFAULT_PACKET_SIZE → out.data.length = DEFAULT_PACKET_SIZE) := by
  simp only [fr_dhcp_encode] at h
  injection h with h
  subst h
  simp only [encodeResult]
  obtain ⟨hf0, hf236, hf237, hf238, hf239, hf240, hf241, hfm, hfm1, hflen⟩ :=
    encodeUnpadded_facts (auth90Stage reply.vps ntp) o
      (if reply.code = 0 then PW_DHCP_NAK else reply.code)
  obtain ⟨hp576, hpin, hppad, hpeq, hple⟩ :=
    padTo576_facts (encodeUnpadded (auth90Stage reply.vps ntp) o
      (if reply.code = 0 then PW_DHCP_NAK else reply.code))
  set U := encodeUnpadded (auth90Stage reply.vps ntp) o
    (if reply.code = 0 then PW_DHCP_NAK else reply.code) with hU
  refine ⟨?_, ?_, ?_, ?_, hp576, ?_⟩
  · rw [hpin 0 (by omega)]
    exact hf0
  · rw [sliceD_succ, sliceD_succ, sliceD_succ, sliceD_succ, sliceD_zero]
    rw [hpin 236 (by omega), hpin 237 (by omega), hpin 238 (by omega), hpin 239 (by omega)]
    rw [hf236, hf237, hf238, hf239]
  · rw [hpin 240 (by omega)]
    exact hf240
  · rw [hpin 241 (by omega)]
    exact hf241
  · refine ⟨U.length - 2, by omega, by omega, ?_, ?_, ?_, ?_⟩
    · rw [hpin (U.length - 2) (by omega)]
      exact hfm
    · have e : U.length - 2 + 1 = U.length - 1 := by omega
      rw [e, hpin (U.length - 1) (by omega)]
      exact hfm1
    · intro j hj hjlen
      exact hppad j (by omega) hjlen
    · intro hlt
      exact hpeq (by omega)

/-- C1 witness: the concrete NAK encode. -/
theorem C1_encode_datagram_shape_witness :
    byteAt widOut.data 0 = 2 ∧
    sliceD widOut.data 236 4 = [99, 130, 83, 99] ∧
    byteAt widOut.data 240 = 53 ∧
    byteAt widOut.data 241 = 1 ∧
    DEFAULT_PACKET_SIZE ≤ widOut.data.length ∧
    ∃ m, 243 ≤ m ∧ m + 2 ≤ widOut.data.length ∧
      byteAt widOut.data m = 255 ∧ byteAt widOut.data (m + 1) = 0 ∧
      (∀ j, m + 2 ≤ j → j < widOut.data.length → byteAt widOut.data j = 0) ∧
      (m + 2 < DEFAULT_PACKET_SIZE → widOut.data.length = DEFAULT_PACKET_SIZE) :=
  C1_encode_datagram_shape widReply widOrig [] widOut (by rfl)
